import Mathlib

/-!
Shallow embedding of the mimosi micromouse simulator core
(src/src/mouse.rs, src/src/ray.rs, src/src/simulation.rs, src/src/maze.rs,
src/src/engine.rs, src/crates/mazeparser/src/lib.rs).

f32 arithmetic is idealized as exact rational arithmetic (ℚ); trigonometric
functions (`Vec2::from_angle`, `cos`, `sin`) are passed as an explicit oracle
so that statements hold for every interpretation of `cos`/`sin`.
Float constants that the code uses literally are kept exact:
`f32::EPSILON = 2⁻²³` and `std::f32::consts::PI` (the f32 closest to π).
-/

/-- 2D vector over ℚ, modelling glam/macroquad `Vec2`. -/
structure Vec2 where
  x : ℚ
  y : ℚ
deriving DecidableEq

instance : Add Vec2 := ⟨fun a b => ⟨a.x + b.x, a.y + b.y⟩⟩

instance : Sub Vec2 := ⟨fun a b => ⟨a.x - b.x, a.y - b.y⟩⟩

/-- glam `Vec2::dot`. -/
def Vec2.dot (a b : Vec2) : ℚ := a.x * b.x + a.y * b.y

/-- glam `Vec2::perp`: counterclockwise perpendicular `(-y, x)`. -/
def Vec2.perp (a : Vec2) : Vec2 := ⟨-a.y, a.x⟩

/-- glam `Vec2::rotate` (complex multiplication, commutative):
`self.rotate(rhs) = (self.x*rhs.x - self.y*rhs.y, self.y*rhs.x + self.x*rhs.y)`. -/
def Vec2.rotate (a b : Vec2) : Vec2 := ⟨a.x * b.x - a.y * b.y, a.y * b.x + a.x * b.y⟩

/-- Trigonometric oracle standing for f32 `cos`/`sin`. -/
structure Trig where
  cos : ℚ → ℚ
  sin : ℚ → ℚ

/-- glam `Vec2::from_angle θ = (cos θ, sin θ)` under a trig oracle. -/
def Vec2.fromAngle (t : Trig) (θ : ℚ) : Vec2 := ⟨t.cos θ, t.sin θ⟩

/-- Rust `f32::clamp(self, min, max)`:
`if self < min { min } else if self > max { max } else { self }`. -/
def clampQ (x lo hi : ℚ) : ℚ := if x < lo then lo else if hi < x then hi else x

/-- Rust `f32::copysign(self, sign)`: magnitude of `self`, sign of `sign`
(ℚ has no negative zero; `sign = 0` gives `+|self|`). -/
def copysignQ (a b : ℚ) : ℚ := if b < 0 then -|a| else |a|

/-- `std::f32::consts::PI`, the f32 nearest to π, exactly. -/
def pi32 : ℚ := 13176795 / 4194304

/-- Rust `as usize` cast from f32: truncation toward zero, negative values
saturate to 0 (ℕ has no upper bound, so the usize::MAX saturation is dropped). -/
def ratAsUsize (q : ℚ) : ℕ := if q ≤ 0 then 0 else q.floor.toNat

/-- `mouse.rs::Sensor`. -/
structure Sensor where
  position_offset : Vec2
  angle : ℚ
  value : ℚ
  closest_point : Vec2
deriving DecidableEq

/-- `engine.rs::SensorInfo` (snapshot of a sensor exposed to the script). -/
structure SensorInfo where
  position_offset : Vec2
  angle : ℚ
  value : ℚ
deriving DecidableEq

/-- `engine.rs::impl From<&Sensor> for SensorInfo`: copies offset and value,
converts the angle to degrees (`f32::to_degrees`, idealized as `· * 180 / π₃₂`). -/
def SensorInfo.ofSensor (s : Sensor) : SensorInfo :=
  { position_offset := s.position_offset
    angle := s.angle * (180 / pi32)
    value := s.value }

/-- `mouse.rs::MouseConfig` (sensors as an association list standing for the HashMap). -/
structure MouseConfig where
  wheel_base : ℚ
  wheel_radius : ℚ
  wheel_friction : ℚ
  mass : ℚ
  max_speed : ℚ
  width : ℚ
  length : ℚ
  encoder_resolution : ℕ
  sensors : List (String × Sensor)

/-- `engine.rs::MouseData`: the copy-in/copy-out snapshot bound into the script. -/
structure MouseData where
  wheel_base : ℚ
  wheel_friction : ℚ
  mass : ℚ
  encoder_resolution : ℕ
  crashed : Bool
  delta_time : ℚ
  width : ℚ
  length : ℚ
  sensors : List (String × SensorInfo)
  left_encoder : ℕ
  right_encoder : ℕ
  left_power : ℚ
  right_power : ℚ

/-- `engine.rs::MouseData::set_left_power`: clamps to [-1, 1]. -/
def MouseData.set_left_power (d : MouseData) (power : ℚ) : MouseData :=
  { d with left_power := clampQ power (-1) 1 }

/-- `engine.rs::MouseData::set_right_power`: clamps to [-1, 1]. -/
def MouseData.set_right_power (d : MouseData) (power : ℚ) : MouseData :=
  { d with right_power := clampQ power (-1) 1 }

/-- `mouse.rs::Micromouse` (sensors as an association list standing for the HashMap). -/
structure Micromouse where
  position : Vec2
  width : ℚ
  length : ℚ
  sensors : List (String × Sensor)
  wheel_friction : ℚ
  orientation : ℚ
  wheel_base : ℚ
  left_power : ℚ
  right_power : ℚ
  left_encoder : ℕ
  right_encoder : ℕ
  encoder_resolution : ℕ
  wheel_radius : ℚ
  left_velocity : ℚ
  right_velocity : ℚ
  max_speed : ℚ
  mass : ℚ

/-- `f32::to_radians`, idealized as `· * (π₃₂ / 180)`. -/
def toRadiansQ (a : ℚ) : ℚ := a * (pi32 / 180)

/-- `mouse.rs::Micromouse::new`: zero velocities, powers and encoders; sensor
angles are converted to radians. -/
def Micromouse.new (c : MouseConfig) (position : Vec2) (orientation : ℚ) : Micromouse :=
  { position := position
    wheel_base := c.wheel_base
    width := c.width
    mass := c.mass
    length := c.length
    max_speed := c.max_speed
    wheel_radius := c.wheel_radius
    left_encoder := 0
    right_encoder := 0
    encoder_resolution := c.encoder_resolution
    sensors := c.sensors.map (fun ns => (ns.1, { ns.2 with angle := toRadiansQ ns.2.angle }))
    orientation := orientation
    wheel_friction := c.wheel_friction
    left_velocity := 0
    right_velocity := 0
    left_power := 0
    right_power := 0 }

/-- `mouse.rs::Micromouse::set_left_power`: clamps to [-1, 1]. -/
def Micromouse.set_left_power (m : Micromouse) (power : ℚ) : Micromouse :=
  { m with left_power := clampQ power (-1) 1 }

/-- `mouse.rs::Micromouse::set_right_power`: clamps to [-1, 1]. -/
def Micromouse.set_right_power (m : Micromouse) (power : ℚ) : Micromouse :=
  { m with right_power := clampQ power (-1) 1 }

/-- `mouse.rs::Micromouse::get_data`: read-only snapshot for the script. -/
def Micromouse.get_data (m : Micromouse) (delta_time : ℚ) (crashed : Bool) : MouseData :=
  { delta_time := delta_time
    wheel_base := m.wheel_base
    wheel_friction := m.wheel_friction
    mass := m.mass
    width := m.width
    length := m.length
    sensors := m.sensors.map (fun ns => (ns.1, SensorInfo.ofSensor ns.2))
    left_encoder := m.left_encoder
    right_encoder := m.right_encoder
    left_power := m.left_power
    right_power := m.right_power
    encoder_resolution := m.encoder_resolution
    crashed := crashed }

/-- `mouse.rs::Micromouse::update_from_data`: the script bridge's copy-back,
which re-clamps both powers through the setters. -/
def Micromouse.update_from_data (m : Micromouse) (d : MouseData) : Micromouse :=
  (m.set_left_power d.left_power).set_right_power d.right_power

/-- `mouse.rs::Micromouse::calculate_acceleration`. -/
def Micromouse.calculate_acceleration (m : Micromouse) (power current_velocity maze_friction : ℚ) : ℚ :=
  let motor_force := power * m.max_speed
  let friction_force := (m.wheel_friction + maze_friction) * |current_velocity|
  let net_force := motor_force - copysignQ friction_force motor_force
  net_force / m.mass

/-- `mouse.rs::Micromouse::apply_friction`: linear decay then snap-to-zero
below 0.001. -/
def Micromouse.apply_friction (m : Micromouse) (dt maze_friction : ℚ) : Micromouse :=
  let friction_force := m.wheel_friction + maze_friction
  let lv := m.left_velocity - m.left_velocity * friction_force * dt
  let rv := m.right_velocity - m.right_velocity * friction_force * dt
  let lv := if |lv| < 1/1000 then 0 else lv
  let rv := if |rv| < 1/1000 then 0 else rv
  { m with left_velocity := lv, right_velocity := rv }

/-- `mouse.rs::Micromouse::update_wheel_encoders`: signed distance → rotations
→ ticks, truncated by the `as usize` cast and accumulated. -/
def Micromouse.update_wheel_encoders (m : Micromouse) (dt : ℚ) : Micromouse :=
  let left_distance := m.left_velocity * dt
  let right_distance := m.right_velocity * dt
  let left_rotations := left_distance / (2 * pi32 * m.wheel_radius)
  let right_rotations := right_distance / (2 * pi32 * m.wheel_radius)
  let left_ticks := left_rotations * (m.encoder_resolution : ℚ)
  let right_ticks := right_rotations * (m.encoder_resolution : ℚ)
  { m with
    left_encoder := m.left_encoder + ratAsUsize left_ticks
    right_encoder := m.right_encoder + ratAsUsize right_ticks }

/-- `mouse.rs::Micromouse::update`: accelerate, clamp velocities, integrate
heading then position (with the already-updated heading), update encoders,
apply friction decay. -/
def Micromouse.update (m : Micromouse) (dt maze_friction : ℚ) (t : Trig) : Micromouse :=
  let left_acceleration := m.calculate_acceleration m.left_power m.left_velocity maze_friction
  let right_acceleration := m.calculate_acceleration m.right_power m.right_velocity maze_friction
  let lv := clampQ (m.left_velocity + left_acceleration * dt) (-m.max_speed) m.max_speed
  let rv := clampQ (m.right_velocity + right_acceleration * dt) (-m.max_speed) m.max_speed
  let average_velocity := (lv + rv) / 2
  let turning_rate := (lv - rv) / m.wheel_base
  let orientation := m.orientation + turning_rate * dt
  let px := m.position.x + average_velocity * t.cos orientation * dt
  let py := m.position.y + average_velocity * t.sin orientation * dt
  let m1 := { m with
    left_velocity := lv
    right_velocity := rv
    orientation := orientation
    position := ⟨px, py⟩ }
  let m2 := m1.update_wheel_encoders dt
  m2.apply_friction dt maze_friction

/-- `maze.rs::Rectangle`: a wall quad / finish rectangle given by 4 corners. -/
structure Rectangle where
  p1 : Vec2
  p2 : Vec2
  p3 : Vec2
  p4 : Vec2
deriving DecidableEq

/-- `maze.rs::Wall` is a newtype around `Rectangle` (with `Deref`). -/
abbrev Wall := Rectangle

/-- `maze.rs::StartDirection` (same shape in `mazeparser`). -/
inductive StartDirection where
  | up
  | right
  | down
  | left
deriving DecidableEq

/-- `maze.rs::Maze` as consumed by the simulation. -/
structure Maze where
  walls : List Wall
  friction : ℚ
  start : Vec2
  start_direction : StartDirection
  finish : Rectangle

/-- `ray.rs::Ray`. -/
structure Ray where
  origin : Vec2
  direction : Vec2

/-- `f32::EPSILON = 2⁻²³`, exactly. -/
def eps32 : ℚ := 1 / 8388608

/-- One edge test inside `ray.rs::Ray::intersect`: perpendicular-dot method,
skipping near-parallel edges (`|denom| < f32::EPSILON`), accepting when
`t1 ≥ 0` and `t2 ∈ [0, 1]`. -/
def edgeHit (r : Ray) (p1 p2 : Vec2) : Option Vec2 :=
  let wall_dir := p2 - p1
  let perp_wall_dir := wall_dir.perp
  let ray_to_wall_start := p1 - r.origin
  let denom := r.direction.dot perp_wall_dir
  if |denom| < eps32 then none
  else
    let t1 := ray_to_wall_start.dot perp_wall_dir / denom
    let t2 := ray_to_wall_start.dot r.direction.perp / denom
    if 0 ≤ t1 ∧ 0 ≤ t2 ∧ t2 ≤ 1 then
      some ⟨r.origin.x + t1 * r.direction.x, r.origin.y + t1 * r.direction.y⟩
    else none

/-- `ray.rs::Ray::intersect`: loops over the wall's 4 edges in the order
(p1,p2), (p2,p3), (p3,p4), (p4,p1), overwriting `found` on every accepted
edge — so the LAST accepted edge's point is returned. -/
def Ray.intersect (r : Ray) (wall : Wall) : Option Vec2 :=
  [(wall.p1, wall.p2), (wall.p2, wall.p3), (wall.p3, wall.p4), (wall.p4, wall.p1)].foldl
    (fun found e =>
      match edgeHit r e.1 e.2 with
      | some p => some p
      | none => found)
    none

/-- Squared Euclidean distance used by `find_nearest_intersection`:
`(i.x - origin.x)² + (i.y - origin.y)²`. -/
def sqDist (origin p : Vec2) : ℚ := (p.x - origin.x) ^ 2 + (p.y - origin.y) ^ 2

/-- One loop iteration of `ray.rs::Ray::find_nearest_intersection`. The source
initializes `nearest_distance = f32::MAX` with `nearest_intersection = None`;
that paired sentinel state is modelled by the single `none` accumulator. -/
def nearStep (r : Ray) (acc : Option (Vec2 × ℚ)) (wall : Wall) : Option (Vec2 × ℚ) :=
  match r.intersect wall with
  | none => acc
  | some p =>
    let d := sqDist r.origin p
    match acc with
    | none => some (p, d)
    | some qd => if d < qd.2 then some (p, d) else some qd

/-- `ray.rs::Ray::find_nearest_intersection`: keeps the strictly nearest
(by squared distance from the ray origin) per-wall intersection point, and
returns it together with that squared distance. -/
def Ray.find_nearest_intersection (r : Ray) (walls : List Wall) : Option (Vec2 × ℚ) :=
  walls.foldl (nearStep r) none

/-- `simulation.rs::lines_intersect::orientation`: sign of the cross product. -/
def orient3 (a b c : Vec2) : ℤ :=
  let val := (b.y - a.y) * (c.x - b.x) - (b.x - a.x) * (c.y - b.y)
  if val = 0 then 0 else if val > 0 then 1 else -1

/-- `simulation.rs::lines_intersect`: proper-crossing test by four orientation
predicates. -/
def lines_intersect (p1 p2 q1 q2 : Vec2) : Bool :=
  let o1 := orient3 p1 p2 q1
  let o2 := orient3 p1 p2 q2
  let o3 := orient3 q1 q2 p1
  let o4 := orient3 q1 q2 p2
  decide (o1 ≠ o2 ∧ o3 ≠ o4)

/-- Inner 4-edge check shared by both collision helpers of `simulation.rs`:
does the segment (a, b) cross any edge of the wall quad. -/
def segmentHitsWall (a b : Vec2) (w : Wall) : Bool :=
  lines_intersect a b w.p1 w.p2 || lines_intersect a b w.p2 w.p3 ||
    lines_intersect a b w.p3 w.p4 || lines_intersect a b w.p4 w.p1

/-- `simulation.rs::rectangle_wall_collision`. -/
def rectangle_wall_collision (p1 p2 p3 p4 : Vec2) (w : Wall) : Bool :=
  [(p1, p2), (p2, p3), (p3, p4), (p4, p1)].any (fun e => segmentHitsWall e.1 e.2 w)

/-- `simulation.rs::triangle_wall_collision`. -/
def triangle_wall_collision (a b c : Vec2) (w : Wall) : Bool :=
  [(a, b), (b, c), (c, a)].any (fun e => segmentHitsWall e.1 e.2 w)

/-- `simulation.rs::Simulation` (the rhai engine and AST are external to the
core model; the script bridge is modelled by `Micromouse.update_from_data`). -/
structure Simulation where
  mouse : Micromouse
  collided : Bool
  finished : Bool
  maze : Maze
  time_scale : ℚ

/-- `simulation.rs::Simulation::check_collisions`: footprint rectangle plus
nose triangle against every wall. -/
def Simulation.check_collisions (mouse : Micromouse) (maze : Maze) (t : Trig) : Bool :=
  let half_width := mouse.width / 2
  let half_length := mouse.length / 2
  let av := Vec2.fromAngle t mouse.orientation
  let rear_left := mouse.position + (Vec2.rotate ⟨-half_length, -half_width⟩ av)
  let rear_right := mouse.position + (Vec2.rotate ⟨-half_length, half_width⟩ av)
  let front_left := mouse.position + (Vec2.rotate ⟨half_length, -half_width⟩ av)
  let front_right := mouse.position + (Vec2.rotate ⟨half_length, half_width⟩ av)
  let front_center := mouse.position + (Vec2.rotate ⟨half_length + half_width, 0⟩ av)
  maze.walls.any (fun wall =>
    rectangle_wall_collision rear_left front_left front_right rear_right wall ||
      triangle_wall_collision front_left front_right front_center wall)

/-- Sensor ray construction from `simulation.rs::Simulation::update`:
world origin = position + rotate(offset, heading), world angle =
heading + mount angle. -/
def sensorRay (m : Micromouse) (t : Trig) (s : Sensor) : Ray :=
  { origin := m.position + s.position_offset.rotate (Vec2.fromAngle t m.orientation)
    direction := Vec2.fromAngle t (m.orientation + s.angle) }

/-- Per-sensor effect of the tick loop in `simulation.rs::Simulation::update`:
overwrite `value`/`closest_point` on a hit, keep the sensor untouched otherwise. -/
def updateSensor (walls : List Wall) (m : Micromouse) (t : Trig) (s : Sensor) : Sensor :=
  match (sensorRay m t s).find_nearest_intersection walls with
  | some pv => { s with value := pv.2, closest_point := pv.1 }
  | none => s

/-- Finish-region membership test of `simulation.rs::Simulation::update`:
position componentwise within `[finish.p1, finish.p3]`, all bounds inclusive. -/
def inFinish (p : Vec2) (finish : Rectangle) : Bool :=
  decide (finish.p1.x ≤ p.x ∧ finish.p1.y ≤ p.y ∧ p.x ≤ finish.p3.x ∧ p.y ≤ finish.p3.y)

/-- `simulation.rs::Simulation::update`: scale dt, advance the vehicle, recast
all sensors, then latch `collided` and `finished` (set-only, never cleared). -/
def Simulation.update (s : Simulation) (dt : ℚ) (t : Trig) : Simulation :=
  let dt_scaled := dt * s.time_scale
  let m1 := s.mouse.update dt_scaled s.maze.friction t
  let m2 := { m1 with
    sensors := m1.sensors.map (fun ns => (ns.1, updateSensor s.maze.walls m1 t ns.2)) }
  let collided := if Simulation.check_collisions m2 s.maze t then true else s.collided
  let finished := if inFinish m2.position s.maze.finish then true else s.finished
  { s with mouse := m2, collided := collided, finished := finished }

/-- The code paths that mutate a `Micromouse` (its fields are touched nowhere
else): the two direct setters, the script bridge's copy-back
(`update_from_data`), and the physics step (`update`). -/
inductive MouseOp where
  | setLeft (p : ℚ)
  | setRight (p : ℚ)
  | scriptCopyBack (d : MouseData)
  | physics (dt maze_friction : ℚ) (t : Trig)

/-- Apply one mutation path to the vehicle. -/
def applyMouseOp (m : Micromouse) : MouseOp → Micromouse
  | .setLeft p => m.set_left_power p
  | .setRight p => m.set_right_power p
  | .scriptCopyBack d => m.update_from_data d
  | .physics dt mf t => m.update dt mf t

/-- Apply a sequence of mutation paths in order. -/
def applyMouseOps (m : Micromouse) (ops : List MouseOp) : Micromouse :=
  ops.foldl applyMouseOp m

/-- ASCII whitespace recognized by `str::trim` on the maze grammar's inputs. -/
def isWsC (c : Char) : Bool := c = ' ' || c = '\t' || c = '\n' || c = '\r'

/-- `str::trim`, on the underlying character list. -/
def trimC (l : List Char) : List Char :=
  ((l.dropWhile isWsC).reverse.dropWhile isWsC).reverse

/-- `str::trim` on strings. -/
def trimS (s : String) : String := ⟨trimC s.data⟩

/-- ASCII uppercase of one character (`str::to_uppercase` on the grammar's
ASCII keys). -/
def upChar (c : Char) : Char :=
  if 'a' ≤ c ∧ c ≤ 'z' then Char.ofNat (c.toNat - 32) else c

/-- `str::to_uppercase`. -/
def upperS (s : String) : String := ⟨s.data.map upChar⟩

/-- `str::split_once` with a one-character pattern: split at the first
occurrence, `none` when the separator is absent. -/
def splitOnceC (sep : Char) : List Char → Option (List Char × List Char)
  | [] => none
  | c :: cs =>
    if c = sep then some ([], cs)
    else
      match splitOnceC sep cs with
      | none => none
      | some ab => some (c :: ab.1, ab.2)

/-- `str::split` with a one-character pattern: parts between every occurrence
(empty parts included, as in Rust). -/
def splitAllC (sep : Char) : List Char → List (List Char)
  | [] => [[]]
  | c :: cs =>
    let r := splitAllC sep cs
    if c = sep then [] :: r
    else
      match r with
      | [] => [[c]]
      | h :: tl => (c :: h) :: tl

/-- Remove a leading pattern if present, `none` when the list does not start
with it (models the Rust pattern-stripping used on `.R` / `.C` keys). -/
def stripPreC : List Char → List Char → Option (List Char)
  | [], l => some l
  | _ :: _, [] => none
  | p :: ps, c :: cs => if c = p then stripPreC ps cs else none

/-- `str::starts_with` for a one-string pattern. -/
def startsWithC (pre l : List Char) : Bool := (stripPreC pre l).isSome

/-- `str::lines`: split at `\n`, drop one trailing empty line, strip a
trailing `\r` from every line. -/
def linesOf (s : String) : List String :=
  let parts := splitAllC '\n' s.data
  let parts := if parts.getLast? = some [] then parts.dropLast else parts
  parts.map (fun l => ⟨if l.getLast? = some '\r' then l.dropLast else l⟩)

/-- Decimal digit value. -/
def digitVal (c : Char) : Option ℕ :=
  if '0' ≤ c ∧ c ≤ '9' then some (c.toNat - 48) else none

/-- Digit-accumulation loop of `u32::from_str`: per-digit overflow check
against `u32::MAX`, Rust's `ParseIntError` display strings as errors. -/
def parseU32Go (acc : ℕ) : List Char → Except String ℕ
  | [] => .ok acc
  | c :: cs =>
    match digitVal c with
    | none => .error "invalid digit found in string"
    | some d =>
      let acc' := acc * 10 + d
      if 4294967296 ≤ acc' then .error "number too large to fit in target type"
      else parseU32Go acc' cs

/-- `u32::from_str` (`str::parse::<u32>()`): optional `+` sign, at least one
digit, per-step overflow check; Rust's error display strings. -/
def parseU32E (s : String) : Except String ℕ :=
  match s.data with
  | [] => .error "cannot parse integer from empty string"
  | cs =>
    let cs := match cs with
      | '+' :: rest => rest
      | _ => cs
    match cs with
    | [] => .error "invalid digit found in string"
    | _ => parseU32Go 0 cs

/-- Integer value of a digit list (most significant first). -/
def digitsVal (l : List Char) : ℕ :=
  l.foldl (fun acc c => acc * 10 + ((digitVal c).getD 0)) 0

/-- Fractional value of a digit list (digits after the decimal point). -/
def fracVal (l : List Char) : ℚ :=
  l.foldr (fun c acc => (((digitVal c).getD 0 : ℚ) + acc) / 10) 0

/-- Mantissa of `f32::from_str`, idealized to exact ℚ: `digits`, `digits.`,
`digits.digits` or `.digits`, at least one digit in total. -/
def parseMantissa (cs : List Char) : Option ℚ :=
  let intPart := cs.takeWhile (fun c => (digitVal c).isSome)
  let rest := cs.dropWhile (fun c => (digitVal c).isSome)
  match rest with
  | [] => if intPart = [] then none else some (digitsVal intPart)
  | '.' :: fracs =>
    if fracs.all (fun c => (digitVal c).isSome) ∧ (intPart ≠ [] ∨ fracs ≠ []) then
      some ((digitsVal intPart : ℚ) + fracVal fracs)
    else none
  | _ => none

/-- `f32::from_str` (`str::parse::<f32>()`), idealized to exact ℚ: optional
sign then a decimal mantissa. Errors are Rust's `ParseFloatError` display
strings. The exponent, `inf` and `nan` forms are not exercised by the maze
grammar and are omitted. -/
def parseF32E (s : String) : Except String ℚ :=
  match s.data with
  | [] => .error "cannot parse float from empty string"
  | cs =>
    let signed : ℚ → ℚ := match cs with
      | '-' :: _ => fun q => -q
      | _ => fun q => q
    let cs := match cs with
      | '+' :: rest => rest
      | '-' :: rest => rest
      | _ => cs
    match parseMantissa cs with
    | some q => .ok (signed q)
    | none => .error "invalid float literal"

/-- `mazeparser::Orientation`. -/
inductive MpOrientation where
  | vertical
  | horizontal
deriving DecidableEq

/-- `mazeparser::Wall`: a one-cell-thick segment in cell units (`end` is a
Lean keyword, hence `endP`). -/
structure MpWall where
  start : Vec2
  endP : Vec2
  orientation : MpOrientation
deriving DecidableEq

/-- `mazeparser::Finish`. -/
structure MpFinish where
  start : Vec2
  endP : Vec2
deriving DecidableEq

/-- `mazeparser::Maze`. -/
structure MpMaze where
  walls : List MpWall
  friction : ℚ
  start : Vec2
  start_direction : StartDirection
  finish : MpFinish
deriving DecidableEq

/-- Effect a successfully parsed maze line has on the accumulated maze.
Parsing decisions in `mazeparser::Maze::from_str` never read the accumulated
state, so each line is modelled as a state-free parse producing an update. -/
inductive LineUpd where
  | noop
  | setSP (v : Vec2)
  | setSD (d : StartDirection)
  | setFI (a b : Vec2)
  | setFR (f : ℚ)
  | addWalls (ws : List MpWall)
deriving Inhabited

/-- The `flat_map` over `min-max` range tokens in `mazeparser::Maze::from_str`:
tokens without `-` are silently skipped, endpoints are `u32`-parsed with
line-numbered error messages, first error wins. -/
def rangeTokens (i : ℕ) : List String → Except String (List (ℕ × ℕ))
  | [] => .ok []
  | tk :: ts =>
    match splitOnceC '-' tk.data with
    | none => rangeTokens i ts
    | some ab =>
      match parseU32E (trimS ⟨ab.1⟩) with
      | .error e =>
        .error s!"Error in line {i}! Starting point of the wall is not a valid number: {e}"
      | .ok mn =>
        match parseU32E (trimS ⟨ab.2⟩) with
        | .error e =>
          .error s!"Error in line {i}! End point of the wall is not a valid number: {e}"
        | .ok mx => (rangeTokens i ts).map (fun l => (mn, mx) :: l)

/-- One line of `mazeparser::Maze::from_str` (1-based line number `i`):
comment and colon-free lines are skipped, keys are case-insensitive, every
failure carries the line number. -/
def lineParse (i : ℕ) (line : String) : Except String LineUpd :=
  if startsWithC ['#'] (trimS line).data then .ok .noop
  else
    match splitOnceC ':' line.data with
    | none => .ok .noop
    | some lr =>
      let l := upperS (trimS ⟨lr.1⟩)
      let r : String := ⟨lr.2⟩
      if l = "#" then .ok .noop
      else if l = "SP" then
        match splitOnceC ',' r.data with
        | none => .ok .noop
        | some ab =>
          match parseF32E (trimS ⟨ab.1⟩) with
          | .error e =>
            .error s!"Error in line {i}! X value of starting point is not a valid number. {e}"
          | .ok x =>
            match parseF32E ⟨ab.2⟩ with
            | .error e =>
              .error s!"Error in line {i}! Y value of starting point is not a valid number. {e}"
            | .ok y => .ok (.setSP ⟨x + 1/2, y + 1/2⟩)
      else if l = "SD" then
        match upperS (trimS r) with
        | "L" => .ok (.setSD .left)
        | "U" => .ok (.setSD .up)
        | "D" => .ok (.setSD .down)
        | "R" => .ok (.setSD .right)
        | _ => .error s!"Error in line {i}! Invalid Starting Direction"
      else if l = "FI" then
        match splitOnceC ';' r.data with
        | none => .ok .noop
        | some lr2 =>
          match splitOnceC ',' lr2.1 with
          | none => .error s!"Error in line {i}! Could not parse start point of finish"
          | some ab =>
            match parseF32E (trimS ⟨ab.1⟩) with
            | .error e =>
              .error s!"Error in line {i}! X value of start point of finish is not a valid number. {e}"
            | .ok x =>
              match parseF32E (trimS ⟨ab.2⟩) with
              | .error e =>
                .error s!"Error in line {i}! Y value of start point of finish is not a valid number. {e}"
              | .ok y =>
                match splitOnceC ',' lr2.2 with
                | none => .error s!"Error in line {i}! Could not parse end point of finish"
                | some cd =>
                  match parseF32E (trimS ⟨cd.1⟩) with
                  | .error e =>
                    .error s!"Error in line {i}! X value of end point of finish is not a valid number. {e}"
                  | .ok x2 =>
                    match parseF32E (trimS ⟨cd.2⟩) with
                    | .error e =>
                      .error s!"Error in line {i}! Y value of end point of finish is not a valid number. {e}"
                    | .ok y2 => .ok (.setFI ⟨x, y⟩ ⟨x2, y2⟩)
      else if l = "FR" then
        match parseF32E (trimS r) with
        | .error e => .error s!"Error in line {i}! Could not parse friction: {e}"
        | .ok f => .ok (.setFR f)
      else
        match stripPreC ['.', 'R'] l.data with
        | some rowCs =>
          match parseF32E ⟨rowCs⟩ with
          | .error e => .error s!"Error in line {i}! Not a valid row number: {e}"
          | .ok row =>
            (rangeTokens i ((splitAllC ',' r.data).map (fun c => (⟨c⟩ : String)))).map
              (fun l =>
                .addWalls (l.map (fun mm =>
                  { start := ⟨(mm.1 : ℚ), row⟩
                    endP := ⟨(mm.2 : ℚ), row⟩
                    orientation := MpOrientation.horizontal })))
        | none =>
          match stripPreC ['.', 'C'] l.data with
          | some colCs =>
            match parseF32E ⟨colCs⟩ with
            | .error e => .error s!"Error in line {i}! Not a valid column number: {e}"
            | .ok col =>
              (rangeTokens i ((splitAllC ',' r.data).map (fun c => (⟨c⟩ : String)))).map
                (fun l =>
                  .addWalls (l.map (fun mm =>
                    { start := ⟨col, (mm.1 : ℚ)⟩
                      endP := ⟨col, (mm.2 : ℚ)⟩
                      orientation := MpOrientation.vertical })))
          | none => .error s!"Error in line {i}! Invalid line: {line}"

/-- Apply a parsed line's effect to the accumulated maze. -/
def applyLineUpd (st : MpMaze) : LineUpd → MpMaze
  | .noop => st
  | .setSP v => { st with start := v }
  | .setSD d => { st with start_direction := d }
  | .setFI a b => { st with finish := ⟨a, b⟩ }
  | .setFR f => { st with friction := f }
  | .addWalls ws => { st with walls := st.walls ++ ws }

/-- Initial accumulator of `mazeparser::Maze::from_str`. -/
def mpInit : MpMaze :=
  { walls := []
    friction := 1
    start := ⟨0, 0⟩
    start_direction := .right
    finish := ⟨⟨0, 0⟩, ⟨0, 0⟩⟩ }

/-- Enumerated-line loop of `mazeparser::Maze::from_str`: the first erroring
line aborts the whole parse. -/
def mpFromStrGo (i : ℕ) (st : MpMaze) : List String → Except String MpMaze
  | [] => .ok st
  | l :: ls =>
    match lineParse i l with
    | .error e => .error e
    | .ok u => mpFromStrGo (i + 1) (applyLineUpd st u) ls

/-- `mazeparser::Maze::from_str`: parse the line-oriented maze grammar; on
error no maze value is produced. -/
def mpFromStr (s : String) : Except String MpMaze :=
  mpFromStrGo 1 mpInit (linesOf s)

/-! Helper lemmas. -/

theorem clampQ_mem (p lo hi : ℚ) (h : lo ≤ hi) : lo ≤ clampQ p lo hi ∧ clampQ p lo hi ≤ hi := by
  unfold clampQ
  split_ifs with h1 h2
  · exact ⟨le_refl lo, h⟩
  · exact ⟨h, le_refl hi⟩
  · exact ⟨le_of_not_lt h1, le_of_not_lt h2⟩

theorem update_powers_unchanged (m : Micromouse) (dt mf : ℚ) (t : Trig) :
    (m.update dt mf t).left_power = m.left_power ∧
      (m.update dt mf t).right_power = m.right_power := by
  constructor <;> rfl

/-- Both powers lie in [-1, 1]. -/
def powersInRange (m : Micromouse) : Prop :=
  -1 ≤ m.left_power ∧ m.left_power ≤ 1 ∧ -1 ≤ m.right_power ∧ m.right_power ≤ 1

theorem applyMouseOp_preserves (m : Micromouse) (op : MouseOp) (h : powersInRange m) :
    powersInRange (applyMouseOp m op) := by
  obtain ⟨h1, h2, h3, h4⟩ := h
  cases op with
  | setLeft p =>
    have hc := clampQ_mem p (-1) 1 (by norm_num)
    exact ⟨hc.1, hc.2, h3, h4⟩
  | setRight p =>
    have hc := clampQ_mem p (-1) 1 (by norm_num)
    exact ⟨h1, h2, hc.1, hc.2⟩
  | scriptCopyBack d =>
    have hl := clampQ_mem d.left_power (-1) 1 (by norm_num)
    have hr := clampQ_mem d.right_power (-1) 1 (by norm_num)
    exact ⟨hl.1, hl.2, hr.1, hr.2⟩
  | physics dt mf t =>
    have hu := update_powers_unchanged m dt mf t
    exact ⟨hu.1 ▸ h1, hu.1 ▸ h2, hu.2 ▸ h3, hu.2 ▸ h4⟩

theorem applyMouseOps_preserves (ops : List MouseOp) :
    ∀ m : Micromouse, powersInRange m → powersInRange (applyMouseOps m ops) := by
  induction ops with
  | nil => intro m h; exact h
  | cons op ops ih =>
    intro m h
    exact ih (applyMouseOp m op) (applyMouseOp_preserves m op h)

/-- C1: every power write — through the direct `Micromouse` setters, the
script-visible `MouseData` setters, or the script bridge's copy-back — stores
`clamp(p, -1, 1)`; and starting from `Micromouse::new`, after any sequence of
the operations that can mutate the vehicle, both power fields lie in [-1, 1]. -/
theorem C1_power_always_clamped :
    (∀ (m : Micromouse) (p : ℚ),
        (m.set_left_power p).left_power = clampQ p (-1) 1 ∧
          (m.set_right_power p).right_power = clampQ p (-1) 1) ∧
      (∀ (d : MouseData) (p : ℚ),
          (d.set_left_power p).left_power = clampQ p (-1) 1 ∧
            (d.set_right_power p).right_power = clampQ p (-1) 1) ∧
      (∀ (m : Micromouse) (d : MouseData),
          (m.update_from_data d).left_power = clampQ d.left_power (-1) 1 ∧
            (m.update_from_data d).right_power = clampQ d.right_power (-1) 1) ∧
      (∀ (c : MouseConfig) (pos : Vec2) (θ : ℚ) (ops : List MouseOp),
          powersInRange (applyMouseOps (Micromouse.new c pos θ) ops)) := by
  refine ⟨fun m p => ⟨rfl, rfl⟩, fun d p => ⟨rfl, rfl⟩, fun m d => ⟨rfl, rfl⟩, ?_⟩
  intro c pos θ ops
  refine applyMouseOps_preserves ops _ ?_
  have hl : (Micromouse.new c pos θ).left_power = 0 := rfl
  have hr : (Micromouse.new c pos θ).right_power = 0 := rfl
  refine ⟨?_, ?_, ?_, ?_⟩ <;> first
    | (rw [hl]; norm_num)
    | (rw [hr]; norm_num)

theorem nearStep_none_iff (r : Ray) (acc : Option (Vec2 × ℚ)) (w : Wall) :
    nearStep r acc w = none ↔ acc = none ∧ r.intersect w = none := by
  unfold nearStep
  cases h : r.intersect w with
  | none => simp
  | some p =>
    cases acc with
    | none => simp
    | some qd => simp only []; split_ifs <;> simp

theorem nearStep_sq (r : Ray) (acc : Option (Vec2 × ℚ)) (w : Wall)
    (h : ∀ p d, acc = some (p, d) → d = sqDist r.origin p) :
    ∀ p d, nearStep r acc w = some (p, d) → d = sqDist r.origin p := by
  intro p d hs
  unfold nearStep at hs
  cases hw : r.intersect w with
  | none => rw [hw] at hs; exact h p d hs
  | some p1 =>
    rw [hw] at hs
    cases hacc : acc with
    | none =>
      rw [hacc] at hs
      simp only [Option.some.injEq, Prod.mk.injEq] at hs
      rw [← hs.1, ← hs.2]
    | some qd =>
      obtain ⟨q0, d0⟩ := qd
      rw [hacc] at hs
      simp only [] at hs
      split_ifs at hs with hlt <;>
        simp only [Option.some.injEq, Prod.mk.injEq] at hs
      · rw [← hs.1, ← hs.2]
      · have hd0 := h q0 d0 hacc
        rw [← hs.1, ← hs.2]
        exact hd0

theorem nearStep_min (r : Ray) (acc : Option (Vec2 × ℚ)) (w : Wall) (p : Vec2) (d : ℚ)
    (h : nearStep r acc w = some (p, d)) :
    (∀ q dq, acc = some (q, dq) → d ≤ dq) ∧
      (∀ q, r.intersect w = some q → d ≤ sqDist r.origin q) := by
  unfold nearStep at h
  cases hw : r.intersect w with
  | none =>
    rw [hw] at h
    refine ⟨fun q dq hq => ?_, fun q hq => absurd hq (by simp)⟩
    rw [hq] at h
    simp only [Option.some.injEq, Prod.mk.injEq] at h
    exact le_of_eq h.2.symm
  | some p1 =>
    rw [hw] at h
    cases hacc : acc with
    | none =>
      rw [hacc] at h
      simp only [Option.some.injEq, Prod.mk.injEq] at h
      refine ⟨fun q dq hq => by simp at hq, fun q hq => ?_⟩
      injection hq with hq
      rw [← h.2, hq]
    | some qd =>
      obtain ⟨q0, d0⟩ := qd
      rw [hacc] at h
      simp only [] at h
      split_ifs at h with hlt <;>
        simp only [Option.some.injEq, Prod.mk.injEq] at h
      · refine ⟨fun q dq hq => ?_, fun q hq => ?_⟩
        · injection hq with hq
          have hdq : d0 = dq := congrArg Prod.snd hq
          rw [← h.2]
          exact le_of_lt (hdq ▸ hlt)
        · injection hq with hq
          rw [← h.2, hq]
      · refine ⟨fun q dq hq => ?_, fun q hq => ?_⟩
        · injection hq with hq
          have hdq : d0 = dq := congrArg Prod.snd hq
          exact le_of_eq (h.2.symm.trans hdq)
        · injection hq with hq
          rw [← h.2, ← hq]
          exact le_of_not_lt hlt

theorem nearStep_isSome (r : Ray) (acc : Option (Vec2 × ℚ)) (w : Wall)
    (h : acc ≠ none ∨ r.intersect w ≠ none) : nearStep r acc w ≠ none := by
  intro hn
  rw [nearStep_none_iff] at hn
  rcases h with h | h
  · exact h hn.1
  · exact h hn.2

theorem foldNear (r : Ray) (walls : List Wall) :
    ∀ acc : Option (Vec2 × ℚ), (∀ p d, acc = some (p, d) → d = sqDist r.origin p) →
      ((walls.foldl (nearStep r) acc = none ↔
          acc = none ∧ ∀ w ∈ walls, r.intersect w = none) ∧
        ∀ p d, walls.foldl (nearStep r) acc = some (p, d) →
          d = sqDist r.origin p ∧
            (acc = some (p, d) ∨ ∃ w ∈ walls, r.intersect w = some p) ∧
            (∀ q dq, acc = some (q, dq) → d ≤ dq) ∧
            ∀ w ∈ walls, ∀ q, r.intersect w = some q → d ≤ sqDist r.origin q) := by
  induction walls with
  | nil =>
    intro acc hacc
    refine ⟨by simp, fun p d h => ?_⟩
    simp only [List.foldl_nil] at h
    refine ⟨hacc p d h, Or.inl h, fun q dq hq => ?_, by simp⟩
    rw [h] at hq
    injection hq with hq
    cases hq
    exact le_refl _
  | cons w ws ih =>
    intro acc hacc
    have hstep := nearStep_sq r acc w hacc
    have IH := ih (nearStep r acc w) hstep
    constructor
    · rw [List.foldl_cons, IH.1, nearStep_none_iff]
      constructor
      · rintro ⟨⟨h1, h2⟩, h3⟩
        exact ⟨h1, by simpa [h2] using h3⟩
      · rintro ⟨h1, h3⟩
        have hw := h3 w (List.mem_cons_self w ws)
        exact ⟨⟨h1, hw⟩, fun w' hw' => h3 w' (List.mem_cons_of_mem w hw')⟩
    · intro p d h
      rw [List.foldl_cons] at h
      obtain ⟨hd, hsrc, hmin_acc, hmin_walls⟩ := IH.2 p d h
      refine ⟨hd, ?_, ?_, ?_⟩
      · rcases hsrc with hs | ⟨w', hw', hq⟩
        · unfold nearStep at hs
          cases hw : r.intersect w with
          | none =>
            rw [hw] at hs
            exact Or.inl hs
          | some p1 =>
            rw [hw] at hs
            cases hacc2 : acc with
            | none =>
              rw [hacc2] at hs
              simp only [Option.some.injEq, Prod.mk.injEq] at hs
              exact Or.inr ⟨w, List.mem_cons_self w ws, by rw [hw, hs.1]⟩
            | some qd =>
              obtain ⟨q0, d0⟩ := qd
              rw [hacc2] at hs
              simp only [] at hs
              split_ifs at hs with hlt <;>
                simp only [Option.some.injEq, Prod.mk.injEq] at hs
              · exact Or.inr ⟨w, List.mem_cons_self w ws, by rw [hw, hs.1]⟩
              · exact Or.inl (by rw [hs.1, hs.2])
        · exact Or.inr ⟨w', List.mem_cons_of_mem w hw', hq⟩
      · intro q dq hq
        have hne : nearStep r acc w ≠ none := nearStep_isSome r acc w (Or.inl (by rw [hq]; simp))
        obtain ⟨ad, had⟩ := Option.ne_none_iff_exists'.mp hne
        obtain ⟨a, da⟩ := ad
        have h1 := (nearStep_min r acc w a da had).1 q dq hq
        have h2 := hmin_acc a da had
        exact le_trans h2 h1
      · intro w' hw' q hq
        rcases List.mem_cons.mp hw' with rfl | hmem
        · have hne : nearStep r acc w' ≠ none := nearStep_isSome r acc w' (Or.inr (by rw [hq]; simp))
          obtain ⟨ad, had⟩ := Option.ne_none_iff_exists'.mp hne
          obtain ⟨a, da⟩ := ad
          have h1 := (nearStep_min r acc w' a da had).2 q hq
          have h2 := hmin_acc a da had
          exact le_trans h2 h1
        · exact hmin_walls w' hmem q hq

theorem intersect_lastAccepted (r : Ray) (w : Wall) :
    r.intersect w =
      ((edgeHit r w.p4 w.p1).or ((edgeHit r w.p3 w.p4).or
        ((edgeHit r w.p2 w.p3).or (edgeHit r w.p1 w.p2)))) := by
  unfold Ray.intersect
  simp only [List.foldl_cons, List.foldl_nil]
  cases h1 : edgeHit r w.p1 w.p2 <;> cases h2 : edgeHit r w.p2 w.p3 <;>
    cases h3 : edgeHit r w.p3 w.p4 <;> cases h4 : edgeHit r w.p4 w.p1 <;>
      simp [h1, h2, h3, h4, Option.or]

theorem intersect_none_iff (r : Ray) (w : Wall) :
    r.intersect w = none ↔
      edgeHit r w.p1 w.p2 = none ∧ edgeHit r w.p2 w.p3 = none ∧
        edgeHit r w.p3 w.p4 = none ∧ edgeHit r w.p4 w.p1 = none := by
  rw [intersect_lastAccepted]
  cases h1 : edgeHit r w.p1 w.p2 <;> cases h2 : edgeHit r w.p2 w.p3 <;>
    cases h3 : edgeHit r w.p3 w.p4 <;> cases h4 : edgeHit r w.p4 w.p1 <;>
      simp [Option.or]

theorem Vec2.sub_def (a b : Vec2) : a - b = ⟨a.x - b.x, a.y - b.y⟩ := rfl

theorem Vec2.add_def (a b : Vec2) : a + b = ⟨a.x + b.x, a.y + b.y⟩ := rfl

theorem nearStep_of_none (r : Ray) (w : Wall) (p : Vec2)
    (h : r.intersect w = some p) :
    nearStep r none w = some (p, sqDist r.origin p) := by
  unfold nearStep
  rw [h]

/-- Counterexample wall for the ray claims: the unit-square wall quad. -/
def wallUnit : Wall := { p1 := ⟨0, 0⟩, p2 := ⟨1, 0⟩, p3 := ⟨1, 1⟩, p4 := ⟨0, 1⟩ }

/-- Counterexample ray: origin (2, 1/2), direction (-1, 0). -/
def rayLeftward : Ray := { origin := ⟨2, 1/2⟩, direction := ⟨-1, 0⟩ }

theorem rayLeftward_intersect : rayLeftward.intersect wallUnit = some ⟨0, 1/2⟩ := by
  norm_num [Ray.intersect, List.foldl_cons, List.foldl_nil, edgeHit, rayLeftward, wallUnit,
    Vec2.dot, Vec2.perp, Vec2.sub_def, eps32]

theorem rayLeftward_nearest :
    rayLeftward.find_nearest_intersection [wallUnit] = some (⟨0, 1/2⟩, 4) := by
  rw [Ray.find_nearest_intersection, List.foldl_cons, List.foldl_nil,
    nearStep_of_none rayLeftward wallUnit ⟨0, 1/2⟩ rayLeftward_intersect]
  norm_num [sqDist, rayLeftward]

/-- C2 counterexample: `find_nearest_intersection` does NOT return the
globally nearest accepted edge intersection. For the leftward ray against the
unit-square wall, edge (p2, p3) is accepted at (1, 1/2) with squared distance
1, but the function returns the later-checked edge's point (0, 1/2) with
squared distance 4. -/
theorem C2_counterexample :
    rayLeftward.find_nearest_intersection [wallUnit] = some (⟨0, 1/2⟩, 4) ∧
      edgeHit rayLeftward wallUnit.p2 wallUnit.p3 = some ⟨1, 1/2⟩ ∧
      sqDist rayLeftward.origin ⟨1, 1/2⟩ = 1 ∧ (1 : ℚ) < 4 := by
  refine ⟨rayLeftward_nearest, ?_, ?_, by norm_num⟩
  · norm_num [edgeHit, rayLeftward, wallUnit, Vec2.dot, Vec2.perp, Vec2.sub_def, eps32]
  · norm_num [sqDist, rayLeftward]

/-- C2 (amended): per wall, `Ray::intersect` returns the hit of the LAST
accepted edge in the order (p1p2, p2p3, p3p4, p4p1) — not the nearest edge —
and `find_nearest_intersection` minimizes squared distance only across these
per-wall representative points: its result pairs a returned point with its
squared distance from the origin, the point is some wall's `intersect` result,
and its distance is minimal among all per-wall `intersect` results; it returns
`none` exactly when no wall has an accepted edge. -/
theorem C2_nearest_among_walls (r : Ray) (walls : List Wall) :
    (r.find_nearest_intersection walls = none ↔ ∀ w ∈ walls, r.intersect w = none) ∧
      (∀ w, r.intersect w = none ↔
        edgeHit r w.p1 w.p2 = none ∧ edgeHit r w.p2 w.p3 = none ∧
          edgeHit r w.p3 w.p4 = none ∧ edgeHit r w.p4 w.p1 = none) ∧
      (∀ w, r.intersect w =
        ((edgeHit r w.p4 w.p1).or ((edgeHit r w.p3 w.p4).or
          ((edgeHit r w.p2 w.p3).or (edgeHit r w.p1 w.p2))))) ∧
      ∀ p d, r.find_nearest_intersection walls = some (p, d) →
        d = sqDist r.origin p ∧
          (∃ w ∈ walls, r.intersect w = some p) ∧
          ∀ w ∈ walls, ∀ q, r.intersect w = some q → d ≤ sqDist r.origin q := by
  have hfold := foldNear r walls none (by simp)
  refine ⟨?_, intersect_none_iff r, intersect_lastAccepted r, ?_⟩
  · rw [Ray.find_nearest_intersection, hfold.1]
    simp
  · intro p d h
    obtain ⟨hd, hsrc, _, hmin⟩ := hfold.2 p d h
    rcases hsrc with hs | hs
    · exact absurd hs (by simp)
    · exact ⟨hd, hs, hmin⟩

/-- C2 witness: the amended characterization applied to the concrete
leftward ray and unit-square wall. -/
theorem C2_nearest_among_walls_witness :
    (4 : ℚ) = sqDist rayLeftward.origin ⟨0, 1/2⟩ ∧
      ∃ w ∈ [wallUnit], rayLeftward.intersect w = some ⟨0, 1/2⟩ := by
  have h := (C2_nearest_among_walls rayLeftward [wallUnit]).2.2.2 ⟨0, 1/2⟩ 4
    rayLeftward_nearest
  exact ⟨h.1, h.2.1⟩

/-- Trig oracle agreeing with cos/sin at angle 0; used for concrete runs. -/
def trivTrig : Trig := ⟨fun _ => 1, fun _ => 0⟩

/-- C3: per tick and per sensor, when the cast ray hits no wall the sensor's
stored `value` and `closest_point` are retained unchanged (the whole sensor
entry is untouched); when a hit `(p, v)` is found both fields are overwritten
with it, all other sensor fields unchanged. The sensor list keeps its length. -/
theorem C3_sensor_retention (s : Simulation) (dt : ℚ) (t : Trig) :
    (s.update dt t).mouse.sensors.length = s.mouse.sensors.length ∧
      ∀ j nm sen, s.mouse.sensors.get? j = some (nm, sen) →
        (((sensorRay (s.mouse.update (dt * s.time_scale) s.maze.friction t) t
              sen).find_nearest_intersection s.maze.walls = none →
            (s.update dt t).mouse.sensors.get? j = some (nm, sen)) ∧
          ∀ p v, ((sensorRay (s.mouse.update (dt * s.time_scale) s.maze.friction t) t
              sen).find_nearest_intersection s.maze.walls = some (p, v) →
            (s.update dt t).mouse.sensors.get? j =
              some (nm, { sen with value := v, closest_point := p }))) := by
  have hs : (s.update dt t).mouse.sensors =
      s.mouse.sensors.map (fun ns =>
        (ns.1, updateSensor s.maze.walls
          (s.mouse.update (dt * s.time_scale) s.maze.friction t) t ns.2)) := rfl
  refine ⟨by rw [hs, List.length_map], fun j nm sen hget => ⟨fun hnone => ?_, fun p v hsome => ?_⟩⟩
  · rw [hs, List.get?_map, hget]
    simp only [Option.map_some']
    rw [updateSensor, hnone]
  · rw [hs, List.get?_map, hget]
    simp only [Option.map_some']
    rw [updateSensor, hsome]

/-- A concrete sensor carrying a previous reading. -/
def sen0 : Sensor := { position_offset := ⟨0, 0⟩, angle := 0, value := 7, closest_point := ⟨3, 4⟩ }

/-- A concrete vehicle standing at (0, 1/2), heading 0, one sensor, at rest. -/
def mouse0 : Micromouse :=
  { position := ⟨0, 1/2⟩, width := 1, length := 1, sensors := [("front", sen0)],
    wheel_friction := 0, orientation := 0, wheel_base := 1, left_power := 0,
    right_power := 0, left_encoder := 0, right_encoder := 0, encoder_resolution := 1,
    wheel_radius := 1, left_velocity := 0, right_velocity := 0, max_speed := 1, mass := 1 }

/-- A wall-free maze. -/
def mazeNoWalls : Maze :=
  { walls := [], friction := 0, start := ⟨0, 0⟩, start_direction := .right,
    finish := { p1 := ⟨5, 5⟩, p2 := ⟨6, 5⟩, p3 := ⟨6, 6⟩, p4 := ⟨5, 6⟩ } }

/-- Concrete simulation state with one sensor and no walls. -/
def simNoWalls : Simulation :=
  { mouse := mouse0, collided := false, finished := false, maze := mazeNoWalls, time_scale := 1 }

/-- C3 witness: with no walls the ray misses, and the sensor entry (including
its previous reading 7 at point (3, 4)) survives the tick unchanged. -/
theorem C3_sensor_retention_witness :
    (simNoWalls.update 0 trivTrig).mouse.sensors.get? 0 = some ("front", sen0) :=
  (((C3_sensor_retention simNoWalls 0 trivTrig).2) 0 "front" sen0 rfl).1 rfl

/-- Sensor-free vehicle at (0, 1/2) overlapping the unit-square wall. -/
def mouseC4 : Micromouse :=
  { position := ⟨0, 1/2⟩, width := 1, length := 1, sensors := [],
    wheel_friction := 0, orientation := 0, wheel_base := 1, left_power := 0,
    right_power := 0, left_encoder := 0, right_encoder := 0, encoder_resolution := 1,
    wheel_radius := 1, left_velocity := 0, right_velocity := 0, max_speed := 1, mass := 1 }

/-- Maze whose unit-square wall overlaps the vehicle and whose finish region
contains the vehicle position. -/
def mazeC4 : Maze :=
  { walls := [wallUnit], friction := 0, start := ⟨0, 0⟩, start_direction := .right,
    finish := { p1 := ⟨-1, 0⟩, p2 := ⟨1, 0⟩, p3 := ⟨1, 1⟩, p4 := ⟨-1, 1⟩ } }

/-- Concrete simulation state about to both collide and finish. -/
def simC4 : Simulation :=
  { mouse := mouseC4, collided := false, finished := false, maze := mazeC4, time_scale := 1 }

theorem simC4_phys :
    simC4.mouse.update (0 * simC4.time_scale) simC4.maze.friction trivTrig = mouseC4 := by
  simp only [simC4, mazeC4, Micromouse.update, Micromouse.calculate_acceleration,
    Micromouse.update_wheel_encoders, Micromouse.apply_friction, copysignQ, clampQ,
    ratAsUsize, trivTrig, mouseC4]
  norm_num

theorem simC4_collision :
    Simulation.check_collisions mouseC4 simC4.maze trivTrig = true := by
  simp only [Simulation.check_collisions, simC4, mazeC4, mouseC4, wallUnit, trivTrig,
    Vec2.fromAngle, Vec2.rotate, Vec2.add_def, List.any_cons, List.any_nil,
    rectangle_wall_collision, triangle_wall_collision, segmentHitsWall, lines_intersect,
    orient3]
  norm_num

theorem simC4_finish : inFinish mouseC4.position simC4.maze.finish = true := by
  simp only [inFinish, mouseC4, simC4, mazeC4]
  norm_num

theorem simC4_up_collided : (simC4.update 0 trivTrig).collided = true := by
  simp only [Simulation.update, simC4_phys]
  simp only [show mouseC4.sensors = [] from rfl, List.map_nil]
  have h : Simulation.check_collisions
      ({ mouseC4 with sensors := ([] : List (String × Sensor)) }) simC4.maze trivTrig = true :=
    simC4_collision
  rw [h]
  simp

theorem simC4_up_finished : (simC4.update 0 trivTrig).finished = true := by
  simp only [Simulation.update, simC4_phys]
  rw [simC4_finish]
  simp

/-- C4: both terminal flags are monotonic across `Simulation::update` — a
true `collided` (resp. `finished`) stays true after any tick — and they are
independent: from a state with both false, a single tick can set both to true
simultaneously. -/
theorem C4_flags_monotone :
    (∀ (s : Simulation) (dt : ℚ) (t : Trig), s.collided = true → (s.update dt t).collided = true) ∧
      (∀ (s : Simulation) (dt : ℚ) (t : Trig), s.finished = true → (s.update dt t).finished = true) ∧
      ∃ (s : Simulation) (dt : ℚ) (t : Trig), s.collided = false ∧ s.finished = false ∧
        (s.update dt t).collided = true ∧ (s.update dt t).finished = true := by
  refine ⟨fun s dt t hc => ?_, fun s dt t hf => ?_, simC4, 0, trivTrig, rfl, rfl,
    simC4_up_collided, simC4_up_finished⟩
  · show (if _ then true else s.collided) = true
    split
    · rfl
    · exact hc
  · show (if _ then true else s.finished) = true
    split
    · rfl
    · exact hf

/-- C4 witness: monotonicity applied to a concrete already-collided,
already-finished state. -/
theorem C4_flags_monotone_witness :
    (Simulation.update { simC4 with collided := true, finished := true } 0 trivTrig).collided
        = true ∧
      (Simulation.update { simC4 with collided := true, finished := true } 0 trivTrig).finished
        = true :=
  ⟨C4_flags_monotone.1 _ 0 trivTrig rfl, C4_flags_monotone.2.1 _ 0 trivTrig rfl⟩

/-- C5: given a finish rectangle with `p1` componentwise ≤ `p3`, the tick
sets `finished` exactly when the (post-physics) vehicle position lies within
the inclusive bounds `[p1, p3]` on both axes: `finished` afterwards is true
iff it was already true or the position is within bounds; a position exactly
on the max corner finishes; a position strictly beyond the max corner on
either axis leaves `finished` unchanged. -/
theorem C5_finish_inclusive (s : Simulation) (dt : ℚ) (t : Trig)
    (hmin : s.maze.finish.p1.x ≤ s.maze.finish.p3.x ∧
      s.maze.finish.p1.y ≤ s.maze.finish.p3.y) :
    ((s.update dt t).finished = true ↔
      (s.finished = true ∨
        (s.maze.finish.p1.x ≤ (s.update dt t).mouse.position.x ∧
          s.maze.finish.p1.y ≤ (s.update dt t).mouse.position.y ∧
          (s.update dt t).mouse.position.x ≤ s.maze.finish.p3.x ∧
          (s.update dt t).mouse.position.y ≤ s.maze.finish.p3.y))) ∧
      ((s.update dt t).mouse.position = s.maze.finish.p3 →
        (s.update dt t).finished = true) ∧
      ((s.maze.finish.p3.x < (s.update dt t).mouse.position.x ∨
          s.maze.finish.p3.y < (s.update dt t).mouse.position.y) →
        (s.update dt t).finished = s.finished) := by
  have hF : (s.update dt t).finished =
      (if inFinish (s.update dt t).mouse.position s.maze.finish then true
        else s.finished) := rfl
  have hin : inFinish (s.update dt t).mouse.position s.maze.finish = true ↔
      (s.maze.finish.p1.x ≤ (s.update dt t).mouse.position.x ∧
        s.maze.finish.p1.y ≤ (s.update dt t).mouse.position.y ∧
        (s.update dt t).mouse.position.x ≤ s.maze.finish.p3.x ∧
        (s.update dt t).mouse.position.y ≤ s.maze.finish.p3.y) := by
    simp [inFinish]
  refine ⟨?_, ?_, ?_⟩
  · rw [hF]
    by_cases hc : inFinish (s.update dt t).mouse.position s.maze.finish = true
    · rw [if_pos hc]
      simp only [true_iff]
      exact Or.inr (hin.mp hc)
    · rw [if_neg hc]
      constructor
      · exact Or.inl
      · rintro (h | h)
        · exact h
        · exact absurd (hin.mpr h) hc
  · intro hp
    have hc : inFinish (s.update dt t).mouse.position s.maze.finish = true :=
      hin.mpr (by rw [hp]; exact ⟨hmin.1, hmin.2, le_refl _, le_refl _⟩)
    rw [hF, if_pos hc]
  · intro hbey
    have hnc : ¬ inFinish (s.update dt t).mouse.position s.maze.finish = true := by
      intro hc
      obtain ⟨_, _, h3, h4⟩ := hin.mp hc
      rcases hbey with hb | hb
      · exact absurd h3 (not_le.mpr hb)
      · exact absurd h4 (not_le.mpr hb)
    rw [hF, if_neg hnc]

theorem simC4_pos : (simC4.update 0 trivTrig).mouse.position = (⟨0, 1/2⟩ : Vec2) := by
  simp only [Simulation.update, simC4_phys]
  rfl

/-- C5 witness: for the concrete state `simC4` (finish rectangle
[-1,1] × [0,1], post-tick position (0, 1/2)), the characterization yields
`finished = true`. -/
theorem C5_finish_inclusive_witness : (simC4.update 0 trivTrig).finished = true := by
  refine (C5_finish_inclusive simC4 0 trivTrig (by constructor <;> norm_num [simC4, mazeC4])).1.mpr
    (Or.inr ?_)
  rw [simC4_pos]
  refine ⟨?_, ?_, ?_, ?_⟩ <;> norm_num [simC4, mazeC4]

/-- C8: with equal left/right power, both friction coefficients zero and
equal initial wheel velocities, one `Micromouse::update` keeps both wheel
velocities exactly equal and changes the heading by exactly zero. -/
theorem C8_symmetric_drive (m : Micromouse) (dt mf : ℚ) (t : Trig)
    (hp : m.left_power = m.right_power) (hwf : m.wheel_friction = 0) (hmf : mf = 0)
    (hv : m.left_velocity = m.right_velocity) :
    (m.update dt mf t).left_velocity = (m.update dt mf t).right_velocity ∧
      (m.update dt mf t).orientation = m.orientation := by
  constructor
  · simp only [Micromouse.update, Micromouse.update_wheel_encoders, Micromouse.apply_friction]
    rw [hp, hv]
  · simp only [Micromouse.update, Micromouse.update_wheel_encoders, Micromouse.apply_friction]
    rw [hp, hv]
    simp

/-- C8 witness: the symmetric-drive property at the concrete resting vehicle
`mouse0` with unit time step. -/
theorem C8_symmetric_drive_witness :
    (mouse0.update 1 0 trivTrig).left_velocity = (mouse0.update 1 0 trivTrig).right_velocity ∧
      (mouse0.update 1 0 trivTrig).orientation = mouse0.orientation :=
  C8_symmetric_drive mouse0 1 0 trivTrig rfl rfl rfl rfl

theorem ratAsUsize_nonpos (q : ℚ) (h : q ≤ 0) : ratAsUsize q = 0 := if_pos h

/-- C9: `update_wheel_encoders` never decreases either encoder counter for
any `dt` and any (possibly negative) wheel velocities — the f32→usize cast
maps nonpositive tick values to zero — and with a positive wheel radius,
reverse motion (velocity·dt ≤ 0) leaves the counter exactly unchanged. -/
theorem C9_encoders_monotone (m : Micromouse) (dt : ℚ) :
    m.left_encoder ≤ (m.update_wheel_encoders dt).left_encoder ∧
      m.right_encoder ≤ (m.update_wheel_encoders dt).right_encoder ∧
      (0 < m.wheel_radius → m.left_velocity * dt ≤ 0 →
        (m.update_wheel_encoders dt).left_encoder = m.left_encoder) ∧
      (0 < m.wheel_radius → m.right_velocity * dt ≤ 0 →
        (m.update_wheel_encoders dt).right_encoder = m.right_encoder) := by
  have hl : (m.update_wheel_encoders dt).left_encoder =
      m.left_encoder + ratAsUsize (m.left_velocity * dt / (2 * pi32 * m.wheel_radius) *
        (m.encoder_resolution : ℚ)) := rfl
  have hr : (m.update_wheel_encoders dt).right_encoder =
      m.right_encoder + ratAsUsize (m.right_velocity * dt / (2 * pi32 * m.wheel_radius) *
        (m.encoder_resolution : ℚ)) := rfl
  have hzero : ∀ v : ℚ, 0 < m.wheel_radius → v * dt ≤ 0 →
      ratAsUsize (v * dt / (2 * pi32 * m.wheel_radius) * (m.encoder_resolution : ℚ)) = 0 := by
    intro v hrad hneg
    apply ratAsUsize_nonpos
    have hden : (0 : ℚ) ≤ 2 * pi32 * m.wheel_radius := by
      have hpi : (0 : ℚ) < pi32 := by norm_num [pi32]
      positivity
    have hq : v * dt / (2 * pi32 * m.wheel_radius) ≤ 0 :=
      div_nonpos_iff.mpr (Or.inr ⟨hneg, hden⟩)
    exact mul_nonpos_iff.mpr (Or.inr ⟨hq, Nat.cast_nonneg _⟩)
  refine ⟨?_, ?_, fun hrad hneg => ?_, fun hrad hneg => ?_⟩
  · rw [hl]; exact Nat.le_add_right _ _
  · rw [hr]; exact Nat.le_add_right _ _
  · rw [hl, hzero _ hrad hneg]
    exact Nat.add_zero _
  · rw [hr, hzero _ hrad hneg]
    exact Nat.add_zero _

/-- Vehicle rolling backwards: both wheel velocities -1, encoders at 5. -/
def mouseRev : Micromouse :=
  { mouse0 with
    sensors := []
    left_velocity := (-1 : ℚ)
    right_velocity := (-1 : ℚ)
    left_encoder := 5
    right_encoder := 5 }

/-- C9 witness: a backwards-rolling vehicle keeps both encoder counters at 5
over a unit time step. -/
theorem C9_encoders_monotone_witness :
    (mouseRev.update_wheel_encoders 1).left_encoder = 5 ∧
      (mouseRev.update_wheel_encoders 1).right_encoder = 5 := by
  have h := C9_encoders_monotone mouseRev 1
  constructor
  · rw [h.2.2.1 (by norm_num [mouseRev, mouse0]) (by norm_num [mouseRev, mouse0])]
    rfl
  · rw [h.2.2.2 (by norm_num [mouseRev, mouse0]) (by norm_num [mouseRev, mouse0])]
    rfl

/-- Ray from (-2, 1/2) pointing in +x, as cast by the concrete sensor below. -/
def rayRightward : Ray := { origin := ⟨-2, 1/2⟩, direction := ⟨1, 0⟩ }

theorem rayRightward_intersect : rayRightward.intersect wallUnit = some ⟨0, 1/2⟩ := by
  norm_num [Ray.intersect, List.foldl_cons, List.foldl_nil, edgeHit, rayRightward, wallUnit,
    Vec2.dot, Vec2.perp, Vec2.sub_def, eps32]

theorem rayRightward_nearest :
    rayRightward.find_nearest_intersection [wallUnit] = some (⟨0, 1/2⟩, 4) := by
  rw [Ray.find_nearest_intersection, List.foldl_cons, List.foldl_nil,
    nearStep_of_none rayRightward wallUnit ⟨0, 1/2⟩ rayRightward_intersect]
  norm_num [sqDist, rayRightward]

/-- Vehicle at (-2, 1/2) carrying the sensor `sen0` (zero offset and angle). -/
def mouseSen : Micromouse := { mouse0 with position := ⟨-2, 1/2⟩ }

theorem mouseSen_ray : sensorRay mouseSen trivTrig sen0 = rayRightward := by
  simp only [sensorRay, mouseSen, mouse0, sen0, rayRightward, trivTrig, Vec2.fromAngle,
    Vec2.rotate, Vec2.add_def, Ray.mk.injEq, Vec2.mk.injEq]
  norm_num

/-- C10: the value paired with a nearest-hit point, stored into the sensor
by the tick loop, and exposed unchanged to the control script through
`SensorInfo`, is the SQUARED Euclidean distance from the ray origin to the
hit point — concretely 2² = 4 for a hit 2 units away, not the distance 2. -/
theorem C10_value_is_squared_distance :
    (∀ (r : Ray) (walls : List Wall) (p : Vec2) (v : ℚ),
        r.find_nearest_intersection walls = some (p, v) → v = sqDist r.origin p) ∧
      (updateSensor [wallUnit] mouseSen trivTrig sen0).value = 4 ∧
      (SensorInfo.ofSensor (updateSensor [wallUnit] mouseSen trivTrig sen0)).value = 4 ∧
      sqDist (⟨-2, 1/2⟩ : Vec2) ⟨0, 1/2⟩ = 2 ^ 2 ∧ (2 : ℚ) ^ 2 ≠ 2 := by
  have hupd : updateSensor [wallUnit] mouseSen trivTrig sen0 =
      { sen0 with value := 4, closest_point := ⟨0, 1/2⟩ } := by
    rw [updateSensor, mouseSen_ray, rayRightward_nearest]
  refine ⟨fun r walls p v h => ((foldNear r walls none (by simp)).2 p v h).1, ?_, ?_, ?_, ?_⟩
  · rw [hupd]
  · rw [hupd]; rfl
  · norm_num [sqDist]
  · norm_num

/-- C10 witness: the general squared-distance law applied to the concrete
rightward ray, whose nearest accepted hit is recorded with value 4. -/
theorem C10_value_is_squared_distance_witness :
    (4 : ℚ) = sqDist rayRightward.origin ⟨0, 1/2⟩ :=
  C10_value_is_squared_distance.1 rayRightward [wallUnit] ⟨0, 1/2⟩ 4 rayRightward_nearest

theorem mpParse_SP23 : mpFromStr "SP: 2,3" =
    .ok { walls := [], friction := 1, start := ⟨(2 : ℕ) + 1/2, (3 : ℕ) + 1/2⟩,
          start_direction := .right, finish := ⟨⟨0, 0⟩, ⟨0, 0⟩⟩ } := rfl

/-- C6 counterexample: parsing `SP: 2,3` and scaling by cell size 50 yields
start position (125, 175), not the claimed (125, 125): the y coordinate is
(3 + 0.5)·50 = 175. -/
theorem C6_counterexample :
    (∃ m, mpFromStr "SP: 2,3" = .ok m ∧
        50 * m.start.x = 125 ∧ 50 * m.start.y = 175) ∧ (175 : ℚ) ≠ 125 := by
  refine ⟨⟨_, mpParse_SP23, ?_, ?_⟩, by norm_num⟩ <;> norm_num

/-- C6 (amended): parsing `SP: 2,3` stores start = (2, 3) + (0.5, 0.5) =
(2.5, 3.5) in cell units, which a cell size of 50 maps to (125, 175). -/
theorem C6_start_position :
    ∃ m, mpFromStr "SP: 2,3" = .ok m ∧
      m.start.x = 2 + 1/2 ∧ m.start.y = 3 + 1/2 ∧
      50 * m.start.x = 125 ∧ 50 * m.start.y = 175 := by
  refine ⟨_, mpParse_SP23, ?_, ?_, ?_, ?_⟩ <;> norm_num

/-- C7 counterexample: the `.R0` range token `xyz` is malformed (it is no
`min-max` range), yet `Maze::from_str` succeeds, silently producing no wall
at all — tokens without `-` are skipped, not rejected. -/
theorem C7_counterexample :
    mpFromStr ".R0: xyz" = .ok mpInit ∧ mpInit.walls = [] := ⟨rfl, rfl⟩

theorem rangeTokens_skip (i : ℕ) (toks : List String)
    (h : ∀ tk ∈ toks, splitOnceC '-' tk.data = none) : rangeTokens i toks = .ok [] := by
  induction toks with
  | nil => rfl
  | cons tk ts ih =>
    rw [rangeTokens, h tk (List.mem_cons_self tk ts)]
    exact ih fun tk2 htk2 => h tk2 (List.mem_cons_of_mem tk htk2)

theorem lineParse_invalid_key (i : ℕ) (line : String) (lcs rcs : List Char)
    (hsplit : splitOnceC ':' line.data = some (lcs, rcs))
    (h0 : startsWithC ['#'] (trimS line).data = false)
    (h1 : upperS (trimS (String.mk lcs)) ≠ "#")
    (h2 : upperS (trimS (String.mk lcs)) ≠ "SP")
    (h3 : upperS (trimS (String.mk lcs)) ≠ "SD")
    (h4 : upperS (trimS (String.mk lcs)) ≠ "FI")
    (h5 : upperS (trimS (String.mk lcs)) ≠ "FR")
    (h6 : stripPreC ['.', 'R'] (upperS (trimS (String.mk lcs))).data = none)
    (h7 : stripPreC ['.', 'C'] (upperS (trimS (String.mk lcs))).data = none) :
    lineParse i line = .error s!"Error in line {i}! Invalid line: {line}" := by
  rw [lineParse]
  simp only [hsplit, h0, h1, h2, h3, h4, h5, h6, h7, Bool.false_eq_true, if_false, ite_false]

/-- C7 (amended): a `.R<row>`/`.C<col>` range token that contains `-` with a
non-integer endpoint, and any unrecognized key before `:`, make
`Maze::from_str` fail with an error naming the 1-based line number, and no
maze value is returned; but a range token WITHOUT `-` is silently skipped,
producing neither a wall nor an error. -/
theorem C7_line_errors :
    (∀ (i : ℕ) (line : String) (lcs rcs : List Char),
        splitOnceC ':' line.data = some (lcs, rcs) →
        startsWithC ['#'] (trimS line).data = false →
        upperS (trimS (String.mk lcs)) ≠ "#" →
        upperS (trimS (String.mk lcs)) ≠ "SP" →
        upperS (trimS (String.mk lcs)) ≠ "SD" →
        upperS (trimS (String.mk lcs)) ≠ "FI" →
        upperS (trimS (String.mk lcs)) ≠ "FR" →
        stripPreC ['.', 'R'] (upperS (trimS (String.mk lcs))).data = none →
        stripPreC ['.', 'C'] (upperS (trimS (String.mk lcs))).data = none →
        lineParse i line = .error s!"Error in line {i}! Invalid line: {line}") ∧
      (∀ (i : ℕ) (toks : List String), (∀ tk ∈ toks, splitOnceC '-' tk.data = none) →
        rangeTokens i toks = .ok []) ∧
      mpFromStr ".R0: 1-x" =
        .error "Error in line 1! End point of the wall is not a valid number: invalid digit found in string" ∧
      mpFromStr "XY: 1" = .error "Error in line 1! Invalid line: XY: 1" :=
  ⟨lineParse_invalid_key, rangeTokens_skip, rfl, rfl⟩

/-- C7 witness: the amended claim at concrete inputs — key `ZZ` on line 3
errors naming line 3, and the dash-free token `xyz` is skipped without error. -/
theorem C7_line_errors_witness :
    lineParse 3 "ZZ: 1" = .error "Error in line 3! Invalid line: ZZ: 1" ∧
      rangeTokens 2 ["xyz"] = .ok [] := by
  constructor
  · exact C7_line_errors.1 3 "ZZ: 1" ['Z', 'Z'] [' ', '1'] rfl rfl (by decide) (by decide)
      (by decide) (by decide) (by decide) rfl rfl
  · exact C7_line_errors.2.1 2 ["xyz"] (by decide)
